import Mathlib

set_option maxRecDepth 8000

/-!
Verification of the response-normalization and parsing layer of the
JamAI-Base admin-copilot repository.  Python string operations are
modelled over `List Char` / `String`; fallible parsing returns `Option`.
-/

/-- Characters removed by Python `str.strip()` (ASCII whitespace). -/
def pyWsChar (c : Char) : Bool :=
  c = ' ' || c = '\t' || c = '\n' || c = '\r' || c = '\x0b' || c = '\x0c'

/-- Drop characters satisfying `p` from both ends of a list. -/
def stripWhileL (p : Char → Bool) (l : List Char) : List Char :=
  ((l.dropWhile p).reverse.dropWhile p).reverse

/-- Python `str.strip()` with no arguments. -/
def pyStrip (s : String) : String := ⟨stripWhileL pyWsChar s.data⟩

/-- Python `str.strip(chars)`: remove any of the given characters from both ends. -/
def pyStripSet (s : String) (cs : String) : String :=
  ⟨stripWhileL (fun c => cs.data.contains c) s.data⟩

/-- Python `str.rstrip()`: remove trailing whitespace. -/
def pyRstrip (s : String) : String :=
  ⟨(s.data.reverse.dropWhile pyWsChar).reverse⟩

/-- Split a list at the first occurrence of `pat`: returns the part before
the occurrence and the part after it. -/
def splitFirstL (pat : List Char) : List Char → Option (List Char × List Char)
  | [] => if pat.isEmpty then some ([], []) else none
  | c :: t =>
    if pat.isPrefixOf (c :: t) then some ([], (c :: t).drop pat.length)
    else
      match splitFirstL pat t with
      | some (a, b) => some (c :: a, b)
      | none => none

/-- Python substring test `pat in s`. -/
def containsSub (s pat : String) : Bool := (splitFirstL pat.data s.data).isSome

/-- Python `s.split(pat, 1)[0]`. -/
def splitBeforeFirst (s pat : String) : String :=
  match splitFirstL pat.data s.data with
  | some (pre, _) => ⟨pre⟩
  | none => s

/-- Python `str.replace`: left-to-right non-overlapping global replacement
(callers only use non-empty patterns; the empty pattern is a no-op here). -/
def replaceAllL (pat rep : List Char) : Nat → List Char → List Char
  | _, [] => []
  | 0, l => l
  | fuel + 1, c :: t =>
    if pat.isEmpty then c :: t
    else if pat.isPrefixOf (c :: t) then rep ++ replaceAllL pat rep fuel ((c :: t).drop pat.length)
    else c :: replaceAllL pat rep fuel t

/-- Python `str.replace` on strings. -/
def pyReplace (s pat rep : String) : String :=
  ⟨replaceAllL pat.data rep.data s.data.length s.data⟩

/-- Python `str.lower()` (ASCII model). -/
def pyLower (s : String) : String := ⟨s.data.map Char.toLower⟩

/-- Leftmost match of the pattern `content='(.*?)'` (DOTALL): the first
occurrence of `content='` that is followed by a later single quote; the
captured group is everything up to that first closing quote.  (If the first
occurrence has no later quote, no later occurrence can have one either,
since a later occurrence would itself supply a quote.) -/
def extractSingleQuoted (s : String) : Option String :=
  match splitFirstL "content=\x27".data s.data with
  | none => none
  | some (_, post) =>
    match splitFirstL ['\x27'] post with
    | none => none
    | some (g, _) => some ⟨g⟩

/-- Leftmost match of the pattern `"content":\s*"([^"]+)"`: scan occurrences
of the literal `"content":` left to right; at each, skip whitespace, require
an opening quote, a non-empty run of non-quote characters and a closing
quote; on failure resume at the next occurrence. -/
def extractDoubleQuoted (fuel : Nat) (l : List Char) : Option String :=
  match fuel with
  | 0 => none
  | fuel + 1 =>
    match splitFirstL "\x22content\x22:".data l with
    | none => none
    | some (_, post) =>
      match post.dropWhile pyWsChar with
      | '\x22' :: rest =>
        let g := rest.takeWhile (fun c => c ≠ '\x22')
        if g.isEmpty then extractDoubleQuoted fuel post
        else
          match rest.drop g.length with
          | '\x22' :: _ => some ⟨g⟩
          | _ => extractDoubleQuoted fuel post
      | _ => extractDoubleQuoted fuel post

/-- `_extract_completion_content`: pull the assistant message content out of a
ChatCompletion-style string; the single-quoted pattern is tried first and its
(possibly empty) capture returned; otherwise the double-quoted pattern. -/
def extract_completion_content (text : String) : Option String :=
  match extractSingleQuoted text with
  | some g => some g
  | none => extractDoubleQuoted text.data.length text.data

/-- Python regex `\w` (ASCII model). -/
def isWordChar (c : Char) : Bool := c.isAlphanum || c = '_'

/-- `re.sub(r"ChatCompletion\w*\([^)]*\)", "", text)`: remove every
non-overlapping, leftmost-first match of the pattern. -/
def reSubCC (fuel : Nat) (l : List Char) : List Char :=
  match fuel, l with
  | 0, l => l
  | _, [] => []
  | fuel + 1, c :: t =>
    if "ChatCompletion".data.isPrefixOf (c :: t) then
      match ((c :: t).drop 14).dropWhile isWordChar with
      | '(' :: r3 =>
        match splitFirstL [')'] r3 with
        | some (_, after) => reSubCC fuel after
        | none => c :: reSubCC fuel t
      | _ => c :: reSubCC fuel t
    else c :: reSubCC fuel t

/-- The dump-trimming branch of `_normalize_text_field`, applied when the
text contains a `ChatCompletion` / `chatcmpl` token. -/
def normDump (text : String) : String :=
  if containsSub text "ChatCompletion" || containsSub text "chatcmpl" then
    let t1 := pyStrip (splitBeforeFirst text "usage=")
    let t2 := pyReplace (pyReplace t1 "choices=[" "") "message=" ""
    pyStripSet ⟨reSubCC t2.data.length t2.data⟩ " ,[]"
  else text

/-- String core of `_normalize_text_field` (the behaviour on `str(value)`):
trim, return an extracted non-empty content capture trimmed, otherwise apply
the dump-trimming branch. -/
def normStr (s : String) : String :=
  if pyStrip s = "" then ""
  else
    match extract_completion_content (pyStrip s) with
    | some g => if g ≠ "" then pyStrip g else normDump (pyStrip s)
    | none => normDump (pyStrip s)

/-- Python values that reach the parsers: `None`, strings, and lists. -/
inductive PyVal where
  | pnone
  | pstr (s : String)
  | plist (xs : List PyVal)

/-- Two-digit lowercase hex of a byte. -/
def hexByte (n : Nat) : List Char :=
  let d := fun k => if k < 10 then Char.ofNat (48 + k) else Char.ofNat (87 + k)
  [d (n / 16 % 16), d (n % 16)]

/-- Escaping of one character inside a Python `repr` string literal. -/
def pyEscChar (q : Char) (c : Char) : List Char :=
  if c = '\\' then ['\\', '\\']
  else if c = q then ['\\', q]
  else if c = '\n' then ['\\', 'n']
  else if c = '\r' then ['\\', 'r']
  else if c = '\t' then ['\\', 't']
  else if c.toNat < 32 then ['\\', 'x'] ++ hexByte c.toNat
  else [c]

/-- Python `repr` of a string: single quotes preferred, double quotes when the
string holds a single quote but no double quote. -/
def pyReprStr (s : String) : String :=
  let useDouble := s.data.contains '\x27' && !(s.data.contains '\x22')
  let q : Char := if useDouble then '\x22' else '\x27'
  ⟨[q] ++ s.data.flatMap (pyEscChar q) ++ [q]⟩

/-- Join strings with a separator. -/
def joinStrSep (sep : String) : List String → String
  | [] => ""
  | [x] => x
  | x :: y :: xs => x ++ sep ++ joinStrSep sep (y :: xs)

mutual

/-- Python `repr` of a value. -/
def pyReprV : PyVal → String
  | .pnone => "None"
  | .pstr s => pyReprStr s
  | .plist xs => "[" ++ joinStrSep ", " (pyReprL xs) ++ "]"

/-- `repr` of each element of a list. -/
def pyReprL : List PyVal → List String
  | [] => []
  | x :: xs => pyReprV x :: pyReprL xs

end

/-- Python `str(value)` on the values the parsers see. -/
def pyToStr : PyVal → String
  | .pnone => "None"
  | .pstr s => s
  | .plist xs => pyReprV (.plist xs)

/-- `_normalize_text_field`: normalize a field that may come back as a complex
object or verbose string. -/
def normalize_text_field : PyVal → String
  | .pnone => ""
  | v => normStr (pyToStr v)

/-- `_looks_like_completion_blob`. -/
def looks_like_completion_blob (text : String) : Bool :=
  let lowered := pyLower text
  (containsSub lowered "chatcompletion" || containsSub lowered "chatcmpl") &&
    (containsSub lowered "id=" || containsSub lowered "object=")

/-- The length cap of `_simplify_warning_text`: text longer than 400
characters is truncated, right-stripped and given an ellipsis marker. -/
def capWarning (text : String) : String :=
  if text = "" then ""
  else if 400 < text.length then pyRstrip ⟨text.data.take 400⟩ ++ "..."
  else text

/-- `_simplify_warning_text`: normalize, then cap oversized text. -/
def simplify_warning_text (v : PyVal) : String :=
  capWarning (normalize_text_field v)

/-- `normStr` on the empty string. -/
theorem normStr_empty : normStr "" = "" := rfl

/-- No content fragment is extracted from the empty string. -/
theorem extract_completion_content_empty : extract_completion_content "" = none := rfl

/-- C2 (counterexample): text normalization is not idempotent.  On the input
containing a single-quoted content fragment that itself carries a
double-quoted content fragment, one normalization pass returns the inner
text, and a second pass extracts again. -/
theorem normalize_text_field_not_idempotent :
    normalize_text_field
        (.pstr (normalize_text_field (.pstr "content=\x27\x22content\x22: \x22abc\x22\x27"))) ≠
      normalize_text_field (.pstr "content=\x27\x22content\x22: \x22abc\x22\x27") := by
  decide

/-- C2 (amended): `normalize_text` is idempotent on every string whose
normalized form is whitespace-trimmed, admits no content-fragment
extraction, and contains neither of the dump tokens `ChatCompletion` and
`chatcmpl` — in particular on already-clean text. -/
theorem normalize_text_field_idempotent_on_clean (x : String)
    (hstrip : pyStrip (normalize_text_field (.pstr x)) = normalize_text_field (.pstr x))
    (hex : extract_completion_content (normalize_text_field (.pstr x)) = none)
    (hc1 : containsSub (normalize_text_field (.pstr x)) "ChatCompletion" = false)
    (hc2 : containsSub (normalize_text_field (.pstr x)) "chatcmpl" = false) :
    normalize_text_field (.pstr (normalize_text_field (.pstr x))) =
      normalize_text_field (.pstr x) := by
  generalize hy : normalize_text_field (.pstr x) = y at hstrip hex hc1 hc2 ⊢
  have h1 : normalize_text_field (.pstr y) = normStr y := rfl
  rw [h1]
  unfold normStr
  rw [hstrip, hex]
  by_cases hempty : y = ""
  · rw [if_pos hempty, hempty]
  · rw [if_neg hempty]
    show normDump y = y
    unfold normDump
    rw [hc1, hc2]
    simp

/-- Witness for the amended C2 theorem at a concrete clean input. -/
theorem normalize_text_field_idempotent_witness :
    normalize_text_field (.pstr (normalize_text_field (.pstr "  hi  "))) =
      normalize_text_field (.pstr "  hi  ") :=
  normalize_text_field_idempotent_on_clean "  hi  " (by decide) (by decide) (by decide)
    (by decide)

/-- C10 (counterexample): a string containing the fragment `content=''`
(empty capture) is returned unchanged by `normalize_text`, not reduced to
the captured fragment. -/
theorem normalize_text_field_empty_capture_kept :
    extract_completion_content (pyStrip "hello content=\x27\x27 world") = some "" ∧
      normalize_text_field (.pstr "hello content=\x27\x27 world") =
        "hello content=\x27\x27 world" ∧
      normalize_text_field (.pstr "hello content=\x27\x27 world") ≠ pyStrip "" :=
  ⟨by decide, by decide, by decide⟩

/-- C10 (amended): whenever the trimmed input admits a content-fragment
extraction whose capture is non-empty, `normalize_text` returns exactly the
trimmed capture and discards all surrounding text, whether or not any dump
marker is present. -/
theorem normalize_text_field_extracts_content (x g : String)
    (hex : extract_completion_content (pyStrip x) = some g) (hg : g ≠ "") :
    normalize_text_field (.pstr x) = pyStrip g := by
  have h1 : normalize_text_field (.pstr x) = normStr x := rfl
  rw [h1]
  unfold normStr
  have hne : ¬ pyStrip x = "" := by
    intro h
    rw [h, extract_completion_content_empty] at hex
    exact Option.noConfusion hex
  rw [if_neg hne, hex]
  show (if g ≠ "" then pyStrip g else normDump (pyStrip x)) = pyStrip g
  rw [if_pos hg]

/-- Witness for the amended C10 theorem at a concrete input. -/
theorem normalize_text_field_extracts_content_witness :
    extract_completion_content (pyStrip "junk content=\x27abc\x27 tail") = some "abc" ∧
      normalize_text_field (.pstr "junk content=\x27abc\x27 tail") = pyStrip "abc" :=
  ⟨by decide, normalize_text_field_extracts_content "junk content=\x27abc\x27 tail" "abc"
    (by decide) (by decide)⟩

/-- JSON values as produced by Python `json.loads`: numbers keep the
int/float distinction and the exact decimal value as a rational; the
non-finite literals Python accepts (NaN, Infinity, -Infinity) are separate
constructors.  Objects keep their member list in source order (lookups take
the last binding, matching dict insertion semantics). -/
inductive JVal where
  | jnull
  | jbool (b : Bool)
  | jnum (isFloat : Bool) (num : Int) (den : Nat)
  | jnan
  | jinf (neg : Bool)
  | jstr (s : String)
  | jarr (elems : List JVal)
  | jobj (members : List (String × JVal))

/-- JSON whitespace characters. -/
def jWsChar (c : Char) : Bool := c = ' ' || c = '\t' || c = '\n' || c = '\r'

/-- Value of a hexadecimal digit. -/
def hexVal (c : Char) : Option Nat :=
  if '0' ≤ c ∧ c ≤ '9' then some (c.toNat - 48)
  else if 'a' ≤ c ∧ c ≤ 'f' then some (c.toNat - 87)
  else if 'A' ≤ c ∧ c ≤ 'F' then some (c.toNat - 55)
  else none

/-- Four hex digits. -/
def parseHex4 : List Char → Option (Nat × List Char)
  | a :: b :: c :: d :: rest =>
    match hexVal a, hexVal b, hexVal c, hexVal d with
    | some x, some y, some z, some w => some (((x * 16 + y) * 16 + z) * 16 + w, rest)
    | _, _, _, _ => none
  | _ => none

/-- Body of a JSON string after the opening quote: returns the decoded
characters and the remainder after the closing quote.  Strict mode: raw
control characters are rejected; surrogate pairs in u-escapes combine. -/
def parseJStrChars : Nat → List Char → Option (List Char × List Char)
  | 0, _ => none
  | _, [] => none
  | fuel + 1, c :: t =>
    if c = '\x22' then some ([], t)
    else if c = '\\' then
      match t with
      | [] => none
      | e :: t2 =>
        if e = 'u' then
          match parseHex4 t2 with
          | none => none
          | some (v, t3) =>
            if 0xD800 ≤ v && v < 0xDC00 then
              match t3 with
              | '\\' :: 'u' :: t4 =>
                match parseHex4 t4 with
                | some (w, t5) =>
                  if 0xDC00 ≤ w && w < 0xE000 then
                    (parseJStrChars fuel t5).map
                      (fun p => (Char.ofNat (0x10000 + (v - 0xD800) * 0x400 + (w - 0xDC00)) :: p.1, p.2))
                  else (parseJStrChars fuel t3).map (fun p => (Char.ofNat v :: p.1, p.2))
                | none => (parseJStrChars fuel t3).map (fun p => (Char.ofNat v :: p.1, p.2))
              | _ => (parseJStrChars fuel t3).map (fun p => (Char.ofNat v :: p.1, p.2))
            else (parseJStrChars fuel t3).map (fun p => (Char.ofNat v :: p.1, p.2))
        else
          match (if e = '\x22' then some '\x22'
                 else if e = '\\' then some '\\'
                 else if e = '/' then some '/'
                 else if e = 'b' then some '\x08'
                 else if e = 'f' then some '\x0c'
                 else if e = 'n' then some '\n'
                 else if e = 'r' then some '\r'
                 else if e = 't' then some '\t'
                 else none) with
          | some ch => (parseJStrChars fuel t2).map (fun p => (ch :: p.1, p.2))
          | none => none
    else if c.toNat < 32 then none
    else (parseJStrChars fuel t).map (fun p => (c :: p.1, p.2))

/-- Decimal digits to a natural number. -/
def digitsToNat (l : List Char) : Nat := l.foldl (fun acc c => acc * 10 + (c.toNat - 48)) 0

/-- Optional exponent part of a JSON number: presence flag, signed value,
remainder (an ill-formed exponent is not consumed, as with the regex). -/
def parseExp (l : List Char) : Bool × Int × List Char :=
  match l with
  | [] => (false, 0, [])
  | c :: t =>
    if c = 'e' || c = 'E' then
      let (esign, t2) : Int × List Char :=
        match t with
        | '+' :: u => (1, u)
        | '-' :: u => (-1, u)
        | _ => (1, t)
      let ds := t2.takeWhile Char.isDigit
      if ds.isEmpty then (false, 0, c :: t)
      else (true, esign * (digitsToNat ds : Int), t2.dropWhile Char.isDigit)
    else (false, 0, c :: t)

/-- Fraction and exponent of a JSON number, given sign and integer digits.
The value `mantissa * 10 ^ (exp - #fraction digits)` is kept exactly as an
integer numerator over a power-of-ten denominator. -/
def parseJNumTail (neg : Bool) (ip : List Char) (rest : List Char) : JVal × List Char :=
  let (fp, r2) : List Char × List Char :=
    match rest with
    | '.' :: t =>
      if (t.takeWhile Char.isDigit).isEmpty then ([], rest)
      else (t.takeWhile Char.isDigit, t.dropWhile Char.isDigit)
    | _ => ([], rest)
  let (hasExp, e, r3) := parseExp r2
  let mant : Nat := digitsToNat (ip ++ fp)
  let t : Int := e - (fp.length : Int)
  let num : Int := if 0 ≤ t then (mant : Int) * ((10 : Int) ^ t.toNat) else (mant : Int)
  let den : Nat := if 0 ≤ t then 1 else (10 : Nat) ^ (-t).toNat
  (.jnum (!fp.isEmpty || hasExp) (if neg then -num else num) den, r3)

/-- JSON number per the regex `-?(0|[1-9]\d*)(\.\d+)?([eE][+-]?\d+)?`. -/
def parseJNum (l : List Char) : Option (JVal × List Char) :=
  let (neg, l1) : Bool × List Char :=
    match l with
    | '-' :: t => (true, t)
    | _ => (false, l)
  match l1 with
  | [] => none
  | c :: t =>
    if c = '0' then some (parseJNumTail neg [c] t)
    else if c.isDigit then
      some (parseJNumTail neg (c :: t.takeWhile Char.isDigit) (t.dropWhile Char.isDigit))
    else none

mutual

/-- One JSON value (leading whitespace tolerated), returning the remainder. -/
def parseJVal : Nat → List Char → Option (JVal × List Char)
  | 0, _ => none
  | fuel + 1, l0 =>
    let l := l0.dropWhile jWsChar
    match l with
    | [] => none
    | c :: t =>
      if c = '\x22' then
        match parseJStrChars (t.length + 1) t with
        | some (cs, rest) => some (.jstr ⟨cs⟩, rest)
        | none => none
      else if c = '[' then
        match t.dropWhile jWsChar with
        | ']' :: r => some (.jarr [], r)
        | _ =>
          match parseJArrTail fuel t with
          | some (vs, rest) => some (.jarr vs, rest)
          | none => none
      else if c = '\x7b' then
        match t.dropWhile jWsChar with
        | '\x7d' :: r => some (.jobj [], r)
        | _ =>
          match parseJObjTail fuel t with
          | some (ms, rest) => some (.jobj ms, rest)
          | none => none
      else if "null".data.isPrefixOf l then some (.jnull, l.drop 4)
      else if "true".data.isPrefixOf l then some (.jbool true, l.drop 4)
      else if "false".data.isPrefixOf l then some (.jbool false, l.drop 5)
      else if "NaN".data.isPrefixOf l then some (.jnan, l.drop 3)
      else if "Infinity".data.isPrefixOf l then some (.jinf false, l.drop 8)
      else if "-Infinity".data.isPrefixOf l then some (.jinf true, l.drop 9)
      else parseJNum l

/-- Array items after the opening bracket (non-empty case). -/
def parseJArrTail : Nat → List Char → Option (List JVal × List Char)
  | 0, _ => none
  | fuel + 1, l =>
    match parseJVal fuel l with
    | none => none
    | some (v, r) =>
      match r.dropWhile jWsChar with
      | ',' :: r2 =>
        match parseJArrTail fuel r2 with
        | some (vs, rest) => some (v :: vs, rest)
        | none => none
      | ']' :: r2 => some ([v], r2)
      | _ => none

/-- Object members after the opening brace (non-empty case). -/
def parseJObjTail : Nat → List Char → Option (List (String × JVal) × List Char)
  | 0, _ => none
  | fuel + 1, l =>
    match l.dropWhile jWsChar with
    | '\x22' :: t =>
      match parseJStrChars (t.length + 1) t with
      | none => none
      | some (ks, r) =>
        match r.dropWhile jWsChar with
        | ':' :: r2 =>
          match parseJVal fuel r2 with
          | none => none
          | some (v, r3) =>
            match r3.dropWhile jWsChar with
            | ',' :: r4 =>
              match parseJObjTail fuel r4 with
              | some (ms, rest) => some ((⟨ks⟩, v) :: ms, rest)
              | none => none
            | '\x7d' :: r4 => some ([(⟨ks⟩, v)], r4)
            | _ => none
        | _ => none
    | _ => none

end

/-- Python `json.loads`: parse one value, tolerate surrounding whitespace,
reject trailing data. -/
def jsonParse (s : String) : Option JVal :=
  match parseJVal (4 * s.data.length + 4) s.data with
  | some (v, rest) => if (rest.dropWhile jWsChar).isEmpty then some v else none
  | none => none

/-- Python truthiness of a JSON-derived value. -/
def jTruthy : JVal → Bool
  | .jnull => false
  | .jbool b => b
  | .jnum _ n _ => !(n == 0)
  | .jnan => true
  | .jinf _ => true
  | .jstr s => !(s == "")
  | .jarr xs => !xs.isEmpty
  | .jobj ms => !ms.isEmpty

/-- Python `dict.get`: the last binding of a key wins (insertion overwrite). -/
def jget (ms : List (String × JVal)) (k : String) : Option JVal :=
  ms.foldl (fun acc kv => if kv.1 = k then some kv.2 else acc) none

/-- Python `a or b` over optional JSON values (`None` and falsy pick `b`). -/
def pyOr (a b : Option JVal) : Option JVal :=
  match a with
  | some v => if jTruthy v then some v else b
  | none => b

/-- Python float values: exact decimals (an integer numerator over a
power-of-ten denominator) plus nan and the signed infinities. -/
inductive PyFloat where
  | fin (num : Int) (den : Nat)
  | nan
  | inf (neg : Bool)
deriving DecidableEq

/-- Cancel common factors of ten (shortest decimal expansion, as Python
prints the decimal literals the parsers feed it). -/
def stripTenFactors (fuel : Nat) (n : Int) (d : Nat) : Int × Nat :=
  match fuel with
  | 0 => (n, d)
  | fuel + 1 =>
    if 10 ≤ d ∧ n % 10 = 0 ∧ d % 10 = 0 then stripTenFactors fuel (n / 10) (d / 10)
    else (n, d)

/-- Number of decimal digits after the point for a power-of-ten denominator. -/
def tenExponent (fuel d : Nat) : Nat :=
  match fuel with
  | 0 => 0
  | fuel + 1 => if d ≤ 1 then 0 else 1 + tenExponent fuel (d / 10)

/-- Python `str` of a float holding the exact decimal `num / den`. -/
def floatRepr (num : Int) (den : Nat) : String :=
  let p := stripTenFactors 40 num den
  let k := tenExponent 40 p.2
  if k = 0 then toString p.1 ++ ".0"
  else
    let s := toString p.1.natAbs
    let s := if s.length ≤ k then String.mk (List.replicate (k + 1 - s.length) '0') ++ s else s
    (if p.1 < 0 then "-" else "") ++ (⟨s.data.take (s.data.length - k)⟩ : String) ++ "." ++
      (⟨s.data.drop (s.data.length - k)⟩ : String)

/-- Python `str` of a JSON number (ints print without a decimal point). -/
def jNumRender (isFloat : Bool) (num : Int) (den : Nat) : String :=
  if isFloat then floatRepr num den else toString num

/-- Escape one character inside a `json.dumps` string literal
(`ensure_ascii=False`). -/
def jsonEscChar (c : Char) : List Char :=
  if c = '\x22' then ['\\', '\x22']
  else if c = '\\' then ['\\', '\\']
  else if c = '\n' then ['\\', 'n']
  else if c = '\r' then ['\\', 'r']
  else if c = '\t' then ['\\', 't']
  else if c = '\x08' then ['\\', 'b']
  else if c = '\x0c' then ['\\', 'f']
  else if c.toNat < 32 then ['\\', 'u', '0', '0'] ++ hexByte c.toNat
  else [c]

/-- `json.dumps` of a string with `ensure_ascii=False`. -/
def jdumpStr (s : String) : String :=
  ⟨['\x22'] ++ s.data.flatMap jsonEscChar ++ ['\x22']⟩

mutual

/-- `json.dumps(value, ensure_ascii=False)` with the default separators. -/
def jdumps : JVal → String
  | .jnull => "null"
  | .jbool true => "true"
  | .jbool false => "false"
  | .jnum f n d => jNumRender f n d
  | .jnan => "NaN"
  | .jinf true => "-Infinity"
  | .jinf false => "Infinity"
  | .jstr s => jdumpStr s
  | .jarr xs => "[" ++ joinStrSep ", " (jdumpsL xs) ++ "]"
  | .jobj ms => "\x7b" ++ joinStrSep ", " (jdumpsM ms) ++ "\x7d"

/-- `json.dumps` of array elements. -/
def jdumpsL : List JVal → List String
  | [] => []
  | x :: xs => jdumps x :: jdumpsL xs

/-- `json.dumps` of object members. -/
def jdumpsM : List (String × JVal) → List String
  | [] => []
  | m :: ms => (jdumpStr m.1 ++ ": " ++ jdumps m.2) :: jdumpsM ms

end

mutual

/-- Python `repr` of a JSON-derived value (for nested containers). -/
def jPyRepr : JVal → String
  | .jnull => "None"
  | .jbool true => "True"
  | .jbool false => "False"
  | .jnum f n d => jNumRender f n d
  | .jnan => "nan"
  | .jinf true => "-inf"
  | .jinf false => "inf"
  | .jstr s => pyReprStr s
  | .jarr xs => "[" ++ joinStrSep ", " (jPyReprL xs) ++ "]"
  | .jobj ms => "\x7b" ++ joinStrSep ", " (jPyReprM ms) ++ "\x7d"

/-- `repr` of array elements. -/
def jPyReprL : List JVal → List String
  | [] => []
  | x :: xs => jPyRepr x :: jPyReprL xs

/-- `repr` of object members. -/
def jPyReprM : List (String × JVal) → List String
  | [] => []
  | m :: ms => (pyReprStr m.1 ++ ": " ++ jPyRepr m.2) :: jPyReprM ms

end

/-- Python `str` of a JSON-derived value. -/
def jPyStr : JVal → String
  | .jstr s => s
  | v => jPyRepr v

/-- Python `float(value)` on a string: optional sign, then `inf`,
`infinity`, `nan` (case-insensitive) or decimal digits with optional point
and exponent. -/
def pyFloatOfString (s : String) : Option PyFloat :=
  let l := stripWhileL pyWsChar s.data
  let (neg, l1) : Bool × List Char :=
    match l with
    | '-' :: t => (true, t)
    | '+' :: t => (false, t)
    | _ => (false, l)
  let low := l1.map Char.toLower
  if low = "inf".data || low = "infinity".data then some (.inf neg)
  else if low = "nan".data then some .nan
  else
    let ip := l1.takeWhile Char.isDigit
    let r1 := l1.dropWhile Char.isDigit
    let (fp, r2) : List Char × List Char :=
      match r1 with
      | '.' :: t => (t.takeWhile Char.isDigit, t.dropWhile Char.isDigit)
      | _ => ([], r1)
    if ip.isEmpty && fp.isEmpty then none
    else
      let (hasExp, e, r3) := parseExp r2
      if !r3.isEmpty then none
      else if hasExp = false && !r2.isEmpty then none
      else
        let mant : Nat := digitsToNat (ip ++ fp)
        let t : Int := e - (fp.length : Int)
        let num : Int := if 0 ≤ t then (mant : Int) * ((10 : Int) ^ t.toNat) else (mant : Int)
        let den : Nat := if 0 ≤ t then 1 else (10 : Nat) ^ (-t).toNat
        some (.fin (if neg then -num else num) den)

/-- `_coerce_float`: Python `float(value)` returning `None` on `TypeError`
or `ValueError` (`value` is a JSON-derived value, `none` standing for a
missing key, i.e. Python `None`). -/
def coerce_float : Option JVal → Option PyFloat
  | none => none
  | some .jnull => none
  | some (.jbool b) => some (.fin (if b then 1 else 0) 1)
  | some (.jnum _ n d) => some (.fin n d)
  | some .jnan => some .nan
  | some (.jinf n) => some (.inf n)
  | some (.jstr s) => pyFloatOfString s
  | some (.jarr _) => none
  | some (.jobj _) => none

/-- The `JamAIResponseError` message wrapping a pydantic `ValidationError`
on the slot label field (the text stands for the wrapped error; the source
formats it as `f"Unexpected error while calling JamAI: {exc}"`). -/
def pydanticLabelError : String :=
  "Unexpected error while calling JamAI: 1 validation error for RecommendedSlot (label)"

/-- The wrapped pydantic `ValidationError` message for the internal-code
field. -/
def pydanticCodeError : String :=
  "Unexpected error while calling JamAI: 1 validation error for RecommendedSlot (internal_code)"

/-- Pydantic validation of an optional field value against `Optional[str]`:
`None` (a missing key or a JSON null) stays `None`, a string passes, and
any other value raises a `ValidationError`, which `call_action_table` wraps
into a `JamAIResponseError`. -/
def optStrOfJ : Option JVal → Except String (Option String)
  | none => .ok none
  | some .jnull => .ok none
  | some (.jstr s) => .ok (some s)
  | some _ => .error pydanticCodeError

/-- `RecommendedSlot` (models.py): a slot recommendation parsed from the
backend output. -/
structure RecommendedSlot where
  label : String
  internal_code : Option String
  confidence : Option PyFloat
deriving DecidableEq

/-- `RealfunRequest` (models.py): normalized representation of a parent
request (the near-duplicate client file names it `CopilotRequest`). -/
structure RealfunRequest where
  student_name : String
  student_level : String
  current_mode : String
  current_slot : String
  raw_request : String
  notes : Option String
deriving DecidableEq

/-- `RealfunResponse` (models.py): structured AI response for the UI (the
near-duplicate client file names it `CopilotResponse`). -/
structure RealfunResponse where
  intent : String
  summary : String
  recommended_slots : List RecommendedSlot
  chosen_slot : Option RecommendedSlot
  whatsapp_message : String
  warnings : List String
deriving DecidableEq

/-- Line-break characters of Python `str.splitlines` (`\r` handled apart). -/
def isLineBreak (c : Char) : Bool :=
  c = '\n' || c = '\x0b' || c = '\x0c' || c = '\x1c' || c = '\x1d' || c = '\x1e' ||
    c.toNat = 0x85 || c.toNat = 0x2028 || c.toNat = 0x2029

/-- Worker for `str.splitlines`. -/
def pySplitlinesGo (fuel : Nat) (cur : List Char) (l : List Char) : List (List Char) :=
  match fuel, l with
  | 0, _ => if cur.isEmpty then [] else [cur.reverse]
  | _, [] => if cur.isEmpty then [] else [cur.reverse]
  | fuel + 1, c :: t =>
    if c = '\r' then
      match t with
      | '\n' :: t2 => cur.reverse :: pySplitlinesGo fuel [] t2
      | _ => cur.reverse :: pySplitlinesGo fuel [] t
    else if isLineBreak c then cur.reverse :: pySplitlinesGo fuel [] t
    else pySplitlinesGo fuel (c :: cur) t

/-- Python `str.splitlines()`. -/
def pySplitlines (s : String) : List String :=
  (pySplitlinesGo s.data.length [] s.data).map (fun l => (⟨l⟩ : String))

/-- `_normalize_text_field` applied to a JSON-derived element (of a warnings
list): `None` maps to the empty string, anything else through `str`. -/
def normalize_text_field_j : JVal → String
  | .jnull => ""
  | v => normStr (jPyStr v)

/-- `_simplify_warning_text` on a JSON-derived element. -/
def simplify_warning_text_j (v : JVal) : String :=
  capWarning (normalize_text_field_j v)

/-- Label resolution for a slot object: `get("label") or get("name")`,
falling back to the given default when the result is falsy.  A truthy
non-string value is rejected by the pydantic `label: str` field, raising a
`ValidationError` that `call_action_table` wraps into a
`JamAIResponseError`. -/
def slotLabel (ms : List (String × JVal)) (fallback : String) : Except String String :=
  match pyOr (jget ms "label") (jget ms "name") with
  | some v =>
    if jTruthy v then
      match v with
      | .jstr s => .ok s
      | _ => .error pydanticLabelError
    else .ok fallback
  | none => .ok fallback

/-- The slot built from one JSON object item of a slot-options array
(pydantic validation of the label and internal-code fields may fail). -/
def slotOfObj (ms : List (String × JVal)) (fallback : String) :
    Except String RecommendedSlot :=
  match slotLabel ms fallback with
  | .error e => .error e
  | .ok label =>
    match optStrOfJ (pyOr (jget ms "internal_code") (jget ms "code")) with
    | .error e => .error e
    | .ok code => .ok ⟨label, code, coerce_float (jget ms "confidence")⟩

/-- The loop of `_parse_recommended_slots` over a parsed JSON array: string
items become labels, object items full slots, other items are skipped; a
pydantic validation failure aborts the loop by raising. -/
def slotsFromItems : List JVal → Except String (List RecommendedSlot)
  | [] => .ok []
  | .jstr s :: rest =>
    match slotsFromItems rest with
    | .error e => .error e
    | .ok slots => .ok (⟨s, none, none⟩ :: slots)
  | .jobj ms :: rest =>
    match slotOfObj ms (jdumps (.jobj ms)) with
    | .error e => .error e
    | .ok slot =>
      match slotsFromItems rest with
      | .error e => .error e
      | .ok slots => .ok (slot :: slots)
  | _ :: rest => slotsFromItems rest

/-- `_parse_recommended_slots` (an `error` is an escaping pydantic
`ValidationError`, wrapped by the caller). -/
def parse_recommended_slots (raw : String) : Except String (List RecommendedSlot) :=
  if raw = "" then .ok []
  else
    match jsonParse raw with
    | none =>
      .ok (if pyStrip raw = "" then [] else [⟨pyStrip raw, none, none⟩])
    | some parsed =>
      match (match parsed with
        | .jarr items => slotsFromItems items
        | .jobj ms =>
          (match slotOfObj ms (pyStrip raw) with
            | .error e => .error e
            | .ok slot => .ok [slot])
        | _ => .ok []) with
      | .error e => .error e
      | .ok slots =>
        .ok (if !slots.isEmpty then slots
          else if pyStrip raw = "" then []
          else [⟨pyStrip raw, none, none⟩])

/-- Linear scan of `_parse_chosen_slot`: first option whose label or
internal code equals the parsed string, else a bare slot. -/
def chooseOpt (s : String) (options : List RecommendedSlot) : Option RecommendedSlot :=
  match options.find? (fun o =>
      s == o.label || (match o.internal_code with
        | some c => s == c
        | none => false)) with
  | some o => some o
  | none => some ⟨s, none, none⟩

/-- `_parse_chosen_slot` (an `error` is an escaping pydantic
`ValidationError` from the dict branch, wrapped by the caller). -/
def parse_chosen_slot (raw : String) (options : List RecommendedSlot) :
    Except String (Option RecommendedSlot) :=
  if raw = "" then .ok none
  else
    match jsonParse (normStr raw) with
    | some (.jobj ms) =>
      match slotOfObj ms (normStr raw) with
      | .error e => .error e
      | .ok slot => .ok (some slot)
    | some (.jstr s) => .ok (chooseOpt s options)
    | none => .ok (chooseOpt (normStr raw) options)
    | some _ => .ok none

/-- `_parse_warnings`. -/
def parse_warnings : PyVal → List String
  | .pnone => []
  | .plist xs => (xs.map simplify_warning_text).filter (fun w => w != "")
  | .pstr s =>
    if simplify_warning_text (.pstr s) = "" then []
    else
      match jsonParse (simplify_warning_text (.pstr s)) with
      | none =>
        ((pySplitlines (simplify_warning_text (.pstr s))).map pyStrip).filter
          (fun l => l != "")
      | some (.jarr items) =>
        (items.map simplify_warning_text_j).filter (fun w => w != "")
      | some _ => [simplify_warning_text (.pstr s)]

/-- Decimal digits of a natural number (Python `str(idx)`). -/
def natDigitsGo (fuel n : Nat) : List Char :=
  match fuel with
  | 0 => []
  | fuel + 1 =>
    if n < 10 then [Char.ofNat (48 + n)]
    else natDigitsGo fuel (n / 10) ++ [Char.ofNat (48 + n % 10)]

/-- Decimal representation of a natural number. -/
def natRepr (n : Nat) : String := ⟨natDigitsGo (n + 1) n⟩

/-- The numbered slot lines of the fallback message
(`f"  {idx}. {slot.label}"`, `idx` counted from `i`). -/
def enumSlotLines (i : Nat) : List RecommendedSlot → List String
  | [] => []
  | s :: rest => ("  " ++ natRepr i ++ ". " ++ s.label) :: enumSlotLines (i + 1) rest

/-- The fixed opening line of `_build_fallback_message`. -/
def openingLine : String :=
  "Hi! Here is a quick summary and options based on your request:"

/-- The fixed closing instruction line of `_build_fallback_message`. -/
def closingLine : String :=
  "Please reply with your preferred option (or share a new timing), and we will confirm with the teacher."

/-- The lines of `_build_fallback_message`, in order. -/
def fallbackLines (summary : String) (slots : List RecommendedSlot)
    (chosen : Option RecommendedSlot) : List String :=
  [openingLine] ++
    (if summary ≠ "" then ["- Summary: " ++ summary] else []) ++
    (match chosen with
     | some c => ["- Suggested slot: " ++ c.label]
     | none =>
       if slots.isEmpty then []
       else "- Recommended slots:" :: enumSlotLines 1 (slots.take 5)) ++
    [closingLine]

/-- Python `"\n".join(lines)`. -/
def joinLines : List String → String
  | [] => ""
  | [x] => x
  | x :: y :: xs => x ++ "\n" ++ joinLines (y :: xs)

/-- `_build_fallback_message`: a human-friendly WhatsApp draft when the
backend returns a blob. -/
def build_fallback_message (summary : String) (slots : List RecommendedSlot)
    (chosen : Option RecommendedSlot) : String :=
  joinLines (fallbackLines summary slots chosen)

/-- One result row of the backend completion: its `columns` mapping, when
present as a mapping. -/
structure JRow where
  columns : Option (List (String × PyVal))

/-- The backend completion shape: its `rows`, when present. -/
structure JCompletion where
  rows : Option (List JRow)

/-- Python truthiness of a column value. -/
def pyTruthy : PyVal → Bool
  | .pnone => false
  | .pstr s => !(s == "")
  | .plist xs => !xs.isEmpty

/-- `columns.get(key, "")`. -/
def colGet (cols : List (String × PyVal)) (k : String) : PyVal :=
  cols.foldl (fun acc kv => if kv.1 = k then kv.2 else acc) (.pstr "")

/-- Python `value or ""` on a column value. -/
def pyOrEmptyStr (v : PyVal) : PyVal :=
  if pyTruthy v then v else .pstr ""

/-- `_extract_columns`: the `columns` mapping of the first result row, or a
`JamAIResponseError` with the source message. -/
def extract_columns (completion : JCompletion) : Except String (List (String × PyVal)) :=
  match completion.rows with
  | none => .error "JamAI response contains no rows."
  | some [] => .error "JamAI response contains no rows."
  | some (row :: _) =>
    match row.columns with
    | none => .error "JamAI row missing 'columns' mapping."
    | some cols => .ok cols

/-- `intent = _normalize_text_field(columns.get("intent", ""))`. -/
def colIntent (cols : List (String × PyVal)) : String :=
  normalize_text_field (colGet cols "intent")

/-- `summary = _normalize_text_field(columns.get("summary", ""))`. -/
def colSummary (cols : List (String × PyVal)) : String :=
  normalize_text_field (colGet cols "summary")

/-- `slot_options_raw = _normalize_text_field(columns.get("slot_options", "") or "")`. -/
def colSlotOptionsRaw (cols : List (String × PyVal)) : String :=
  normalize_text_field (pyOrEmptyStr (colGet cols "slot_options"))

/-- `chosen_slot_raw = _normalize_text_field(columns.get("chosen_slot", "") or "")`. -/
def colChosenRaw (cols : List (String × PyVal)) : String :=
  normalize_text_field (pyOrEmptyStr (colGet cols "chosen_slot"))

/-- `whatsapp_message` as first normalized from the column. -/
def colWhatsapp0 (cols : List (String × PyVal)) : String :=
  normalize_text_field (colGet cols "whatsapp_message")

/-- `recommended_slots`, with the extra wrap when parsing yielded nothing
from a non-empty raw value; an escaping pydantic `ValidationError` from the
parse propagates. -/
def colSlots (cols : List (String × PyVal)) : Except String (List RecommendedSlot) :=
  match parse_recommended_slots (colSlotOptionsRaw cols) with
  | .error e => .error e
  | .ok slots =>
    .ok (if slots.isEmpty && !(colSlotOptionsRaw cols == "") then
        [⟨pyStrip (colSlotOptionsRaw cols), none, none⟩]
      else slots)

/-- The response built from one row's column mapping: the required-field
invariant check first (the source raises it before any slot parsing), then
the slot parses — either of which may raise a wrapped pydantic error — then
the outbound message, with the fallback synthesized when the normalized
message is empty or looks like a completion blob. -/
def build_response_from_cols (cols : List (String × PyVal)) :
    Except String RealfunResponse :=
  if colIntent cols = "" || colSummary cols = "" then
    .error "JamAI response is missing required fields."
  else
    match colSlots cols with
    | .error e => .error e
    | .ok slots =>
      match parse_chosen_slot (colChosenRaw cols) slots with
      | .error e => .error e
      | .ok chosen =>
        .ok ⟨colIntent cols, colSummary cols, slots, chosen,
          if colWhatsapp0 cols = "" || looks_like_completion_blob (colWhatsapp0 cols) then
            build_fallback_message (colSummary cols) slots chosen
          else colWhatsapp0 cols,
          parse_warnings (colGet cols "warnings")⟩

/-- `call_action_table`, from column extraction onward: the network call is
abstracted to the completion value it returned; `Except.error` stands for
raising `JamAIResponseError`. -/
def call_action_table (completion : JCompletion) : Except String RealfunResponse :=
  match extract_columns completion with
  | .error e => .error e
  | .ok cols => build_response_from_cols cols

/-- The two error kinds the caller distinguishes: `ValueError` from the
request validator, and `JamAIResponseError` from the client. -/
inductive ServiceError where
  | validation (msg : String)
  | jamai (msg : String)
deriving DecidableEq

/-- `process_parent_request` (services.py).  Modelled from the spec: the
client operation it invokes (`call_realfun_action_table`, whose definition
is not among the sources — only this caller is) is the `backend` parameter,
a single abstract call to the AI backend.  The returned list records the requests
passed to `backend`; the source performs exactly one such call after
validation, and none when validation fails. -/
def process_parent_request (backend : RealfunRequest → Except String RealfunResponse)
    (student_name student_level current_mode current_slot raw_request notes : String) :
    List RealfunRequest × Except ServiceError RealfunResponse :=
  if pyStrip student_name = "" then ([], .error (.validation "Student name is required."))
  else if pyStrip student_level = "" then
    ([], .error (.validation "Student level is required."))
  else if pyStrip raw_request = "" then
    ([], .error (.validation "Parent request cannot be empty."))
  else
    let req : RealfunRequest :=
      ⟨pyStrip student_name, pyStrip student_level, pyStrip current_mode,
        pyStrip current_slot, pyStrip raw_request,
        if pyStrip notes = "" then none else some (pyStrip notes)⟩
    match backend req with
    | .ok r => ([req], .ok r)
    | .error e => ([req], .error (.jamai e))

/-- C5: for every slot text non-empty after trimming and not parseable as
JSON, `parse_recommended_slots` returns exactly one slot whose label is the
trimmed input — freeform text is never split into lines at this stage. -/
theorem parse_recommended_slots_freeform (raw : String)
    (hne : pyStrip raw ≠ "") (hjson : jsonParse raw = none) :
    parse_recommended_slots raw = .ok [⟨pyStrip raw, none, none⟩] := by
  have hraw : ¬ raw = "" := fun h => hne (by rw [h]; rfl)
  unfold parse_recommended_slots
  rw [if_neg hraw, hjson]
  show Except.ok (if pyStrip raw = "" then ([] : List RecommendedSlot)
      else [⟨pyStrip raw, none, none⟩]) = .ok [⟨pyStrip raw, none, none⟩]
  rw [if_neg hne]

/-- Witness for C5 at the bullet-list input of the repository tests. -/
theorem parse_recommended_slots_freeform_witness :
    pyStrip "• Sat 2pm online\n• Sun 4pm physical" ≠ "" ∧
      jsonParse "• Sat 2pm online\n• Sun 4pm physical" = none ∧
      parse_recommended_slots "• Sat 2pm online\n• Sun 4pm physical" =
        .ok [⟨pyStrip "• Sat 2pm online\n• Sun 4pm physical", none, none⟩] :=
  ⟨by decide, rfl,
    parse_recommended_slots_freeform "• Sat 2pm online\n• Sun 4pm physical"
      (by decide) rfl⟩

/-- The object shape C7 quantifies over (with the forced correction that
the internal code is non-empty): a non-empty string label, a non-empty
string internal code, a numeric confidence. -/
def slotObjShape (e : JVal) (t : String × String × Int × Nat) : Prop :=
  ∃ ms f, e = JVal.jobj ms ∧
    jget ms "label" = some (.jstr t.1) ∧ t.1 ≠ "" ∧
    jget ms "internal_code" = some (.jstr t.2.1) ∧ t.2.1 ≠ "" ∧
    jget ms "confidence" = some (.jnum f t.2.2.1 t.2.2.2)

/-- The slot loop preserves label, internal code and confidence of each
well-shaped object, in order. -/
theorem slotsFromItems_of_shape {elems : List JVal}
    {ts : List (String × String × Int × Nat)}
    (h : List.Forall₂ slotObjShape elems ts) :
    slotsFromItems elems =
      .ok (ts.map (fun t =>
        (⟨t.1, some t.2.1, some (.fin t.2.2.1 t.2.2.2)⟩ : RecommendedSlot))) := by
  induction h with
  | nil => rfl
  | @cons e t es tss h1 h2 ih =>
    obtain ⟨ms, f, rfl, hl, hl0, hc, hc0, hq⟩ := h1
    have hl1 : (t.1 == "") = false := beq_eq_false_iff_ne.mpr hl0
    have hc1 : (t.2.1 == "") = false := beq_eq_false_iff_ne.mpr hc0
    have hobj : slotOfObj ms (jdumps (.jobj ms)) =
        .ok ⟨t.1, some t.2.1, some (.fin t.2.2.1 t.2.2.2)⟩ := by
      simp [slotOfObj, slotLabel, pyOr, hl, hc, hq, jTruthy, hl1, hc1,
        optStrOfJ, coerce_float]
    simp [slotsFromItems, hobj, ih, List.map]

/-- C7 (amended): for every text parsing to a non-empty JSON array of
objects each having a non-empty string `label`, a non-empty string
`internal_code`, and a float `confidence`, parsing preserves each object's
label, internal code and confidence exactly, in the same order. -/
theorem parse_recommended_slots_roundtrip (txt : String) (elems : List JVal)
    (ts : List (String × String × Int × Nat)) (hts : ts ≠ [])
    (hjson : jsonParse txt = some (.jarr elems))
    (hshape : List.Forall₂ slotObjShape elems ts) :
    parse_recommended_slots txt =
      .ok (ts.map (fun t =>
        (⟨t.1, some t.2.1, some (.fin t.2.2.1 t.2.2.2)⟩ : RecommendedSlot))) := by
  have htxt : ¬ txt = "" := by
    intro h
    rw [h] at hjson
    have hnil : jsonParse "" = none := rfl
    rw [hnil] at hjson
    exact Option.noConfusion hjson
  unfold parse_recommended_slots
  rw [if_neg htxt, hjson]
  show (match slotsFromItems elems with
    | .error e => Except.error e
    | .ok slots =>
      Except.ok (if !slots.isEmpty then slots
        else if pyStrip txt = "" then [] else [⟨pyStrip txt, none, none⟩])) = _
  rw [slotsFromItems_of_shape hshape]
  obtain ⟨a, as, rfl⟩ : ∃ a as, ts = a :: as := by
    cases ts with
    | nil => exact absurd rfl hts
    | cons a as => exact ⟨a, as, rfl⟩
  rfl

/-- C7 (counterexample): an empty-string `internal_code` is not preserved
(the slot carries `None` instead), and the empty array is not parsed to the
empty slot list but to a single bracket-labelled slot. -/
theorem parse_recommended_slots_roundtrip_counterexample :
    jsonParse "[\x7b\"label\":\"a\",\"internal_code\":\"\",\"confidence\":0.5\x7d]" =
        some (.jarr [.jobj [("label", .jstr "a"), ("internal_code", .jstr ""),
          ("confidence", .jnum true 5 10)]]) ∧
      (match parse_recommended_slots
            "[\x7b\"label\":\"a\",\"internal_code\":\"\",\"confidence\":0.5\x7d]" with
        | .ok slots => slots.map (fun s => s.internal_code)
        | .error _ => [some "raised"]) = [none] ∧
      parse_recommended_slots "[]" = .ok [⟨"[]", none, none⟩] :=
  ⟨rfl, by decide, rfl⟩

/-- Witness for C7 at the slot array of the repository tests. -/
theorem parse_recommended_slots_roundtrip_witness :
    parse_recommended_slots
        "[\x7b\"label\":\"Sat\",\"internal_code\":\"SAT\",\"confidence\":0.5\x7d]" =
      .ok [⟨"Sat", some "SAT", some (.fin 5 10)⟩] :=
  parse_recommended_slots_roundtrip _
    [.jobj [("label", .jstr "Sat"), ("internal_code", .jstr "SAT"),
      ("confidence", .jnum true 5 10)]]
    [("Sat", "SAT", (5 : Int), (10 : Nat))] (by decide) rfl
    (by
      refine List.Forall₂.cons ?_ List.Forall₂.nil
      exact ⟨_, true, rfl, rfl, by decide, rfl, by decide, rfl⟩)

/-- C9: `parse_warnings` returns `[]` for `None`, for strings that simplify
to empty and for lists whose elements all simplify to empty; a string whose
cleaned text is not parseable as JSON yields the non-blank trimmed lines of
the cleaned text; every warning from a list input is `simplify_warning_text`
of an element (empties dropped); and `simplify_warning_text` normalizes and
caps text longer than 400 characters, appending an ellipsis marker. -/
theorem parse_warnings_spec :
    parse_warnings .pnone = [] ∧
      (∀ s : String, simplify_warning_text (.pstr s) = "" →
        parse_warnings (.pstr s) = []) ∧
      (∀ xs : List PyVal, (∀ x ∈ xs, simplify_warning_text x = "") →
        parse_warnings (.plist xs) = []) ∧
      (∀ s : String, simplify_warning_text (.pstr s) ≠ "" →
        jsonParse (simplify_warning_text (.pstr s)) = none →
        parse_warnings (.pstr s) =
          ((pySplitlines (simplify_warning_text (.pstr s))).map pyStrip).filter
            (fun l => l != "")) ∧
      (∀ xs : List PyVal,
        parse_warnings (.plist xs) =
          (xs.map simplify_warning_text).filter (fun w => w != "")) ∧
      (∀ v : PyVal, 400 < (normalize_text_field v).length →
        simplify_warning_text v =
          pyRstrip ⟨(normalize_text_field v).data.take 400⟩ ++ "...") ∧
      (∀ v : PyVal, (normalize_text_field v).length ≤ 400 →
        simplify_warning_text v = normalize_text_field v) := by
  refine ⟨rfl, ?_, ?_, ?_, fun _ => rfl, ?_, ?_⟩
  · intro s h
    simp [parse_warnings, h]
  · intro xs h
    show (xs.map simplify_warning_text).filter (fun w => w != "") = []
    rw [List.filter_eq_nil_iff]
    intro a ha
    obtain ⟨x, hx, rfl⟩ := List.mem_map.mp ha
    simp [h x hx]
  · intro s h1 h2
    simp [parse_warnings, if_neg h1, h2]
  · intro v h
    have hne : normalize_text_field v ≠ "" := by
      intro he
      rw [he] at h
      exact absurd h (by decide)
    simp [simplify_warning_text, capWarning, hne, h]
  · intro v h
    by_cases he : normalize_text_field v = ""
    · simp [simplify_warning_text, capWarning, he]
    · have : ¬ 400 < (normalize_text_field v).length := by omega
      simp [simplify_warning_text, capWarning, he, this]

/-- Witness for C9: a concrete multi-line freeform warning and a blank one. -/
theorem parse_warnings_spec_witness :
    parse_warnings (.pstr "a\n\n b \nc") = ["a", "b", "c"] ∧
      parse_warnings (.pstr "   ") = [] :=
  ⟨(parse_warnings_spec.2.2.2.1 "a\n\n b \nc" (by decide) rfl).trans (by decide),
    parse_warnings_spec.2.1 "   " (by decide)⟩

/-- The bare-string form the chosen-slot parser matches against the
options: the cleaned text when its JSON parse fails, or the parsed plain
JSON string; other parses give no string. -/
def parsedStringOf (raw : String) : Option String :=
  match jsonParse (normStr raw) with
  | none => some (normStr raw)
  | some (.jstr s) => some s
  | some _ => none

/-- C6: empty raw input yields `None`; a bare string matching an existing
option by label or internal code returns that exact option (the first
match), its confidence and internal code intact; a value parsing to a JSON
number or a JSON list yields `None`. -/
theorem parse_chosen_slot_spec :
    (∀ options : List RecommendedSlot, parse_chosen_slot "" options = .ok none) ∧
      (∀ (raw : String) (options : List RecommendedSlot) (v : String),
        raw ≠ "" → parsedStringOf raw = some v →
        (∃ o ∈ options, v = o.label ∨ o.internal_code = some v) →
        ∃ o ∈ options, (v = o.label ∨ o.internal_code = some v) ∧
          parse_chosen_slot raw options = .ok (some o)) ∧
      (∀ (raw : String) (options : List RecommendedSlot),
        ((∃ f n d, jsonParse (normStr raw) = some (.jnum f n d)) ∨
          (∃ xs, jsonParse (normStr raw) = some (.jarr xs))) →
        parse_chosen_slot raw options = .ok none) := by
  refine ⟨fun _ => rfl, ?_, ?_⟩
  · intro raw options v hraw hv hmatch
    have hfind : (options.find? (fun o =>
        v == o.label || (match o.internal_code with
          | some c => v == c
          | none => false))).isSome := by
      rw [List.find?_isSome]
      obtain ⟨o, ho, hm⟩ := hmatch
      refine ⟨o, ho, ?_⟩
      rcases hm with hm | hm
      · simp [hm]
      · rw [hm]
        simp
    obtain ⟨o, hfo⟩ := Option.isSome_iff_exists.mp hfind
    have ho : o ∈ options := List.mem_of_find?_eq_some hfo
    have hp := List.find?_some hfo
    have hred : parse_chosen_slot raw options = .ok (chooseOpt v options) := by
      unfold parse_chosen_slot
      rw [if_neg hraw]
      unfold parsedStringOf at hv
      rcases hj : jsonParse (normStr raw) with _ | val
      · rw [hj] at hv
        simp only [Option.some.injEq] at hv
        show Except.ok (chooseOpt (normStr raw) options) = .ok (chooseOpt v options)
        rw [hv]
      · rw [hj] at hv
        cases val with
        | jstr s =>
          simp only [Option.some.injEq] at hv
          show Except.ok (chooseOpt s options) = .ok (chooseOpt v options)
          rw [hv]
        | jnull => simp at hv
        | jbool b => simp at hv
        | jnum f n d => simp at hv
        | jnan => simp at hv
        | jinf n => simp at hv
        | jarr xs => simp at hv
        | jobj ms => simp at hv
    refine ⟨o, ho, ?_, ?_⟩
    · rcases hb : o.internal_code with _ | c
      · rw [hb] at hp
        simp at hp
        exact Or.inl hp
      · rw [hb] at hp
        simp at hp
        rcases hp with hp | hp
        · exact Or.inl hp
        · exact Or.inr (by rw [hp])
    · rw [hred]
      unfold chooseOpt
      rw [hfo]
  · intro raw options h
    by_cases hraw : raw = ""
    · simp [parse_chosen_slot, hraw]
    · unfold parse_chosen_slot
      rw [if_neg hraw]
      rcases h with ⟨f, n, d, hj⟩ | ⟨xs, hj⟩ <;> rw [hj]

/-- Witness for C6: a concrete internal-code match, the empty input, and a
JSON-list input. -/
theorem parse_chosen_slot_spec_witness :
    parse_chosen_slot "SAT" [⟨"Sat", some "SAT", some (.fin 9 10)⟩] =
        .ok (some ⟨"Sat", some "SAT", some (.fin 9 10)⟩) ∧
      parse_chosen_slot "" [⟨"Sat", some "SAT", some (.fin 9 10)⟩] = .ok none ∧
      parse_chosen_slot "[1]" [] = .ok none := by
  refine ⟨?_, parse_chosen_slot_spec.1 _,
    parse_chosen_slot_spec.2.2 "[1]" [] (Or.inr ⟨[.jnum false 1 1], rfl⟩)⟩
  obtain ⟨o, ho, _, hp⟩ := parse_chosen_slot_spec.2.1 "SAT"
    [⟨"Sat", some "SAT", some (.fin 9 10)⟩] "SAT" (by decide) rfl
    ⟨⟨"Sat", some "SAT", some (.fin 9 10)⟩, by simp, Or.inr rfl⟩
  rw [hp]
  simp only [List.mem_singleton] at ho
  rw [ho]

/-- C4 (counterexample): a completion whose normalized intent and summary
are both non-empty still raises — its slot_options column parses to an
object whose label is a truthy non-string, so the pydantic `label: str`
validation fails and the wrapped error escapes; error is therefore not
equivalent to missing rows/columns or blank required fields. -/
theorem call_action_table_error_iff_counterexample :
    normalize_text_field (colGet [("intent", PyVal.pstr "i"),
        ("summary", PyVal.pstr "s"), ("whatsapp_message", PyVal.pstr "w"),
        ("slot_options", PyVal.pstr "[\x7b\"label\": [1]\x7d]")] "intent") = "i" ∧
      normalize_text_field (colGet [("intent", PyVal.pstr "i"),
        ("summary", PyVal.pstr "s"), ("whatsapp_message", PyVal.pstr "w"),
        ("slot_options", PyVal.pstr "[\x7b\"label\": [1]\x7d]")] "summary") = "s" ∧
      call_action_table ⟨some [⟨some [("intent", PyVal.pstr "i"),
          ("summary", PyVal.pstr "s"), ("whatsapp_message", PyVal.pstr "w"),
          ("slot_options", PyVal.pstr "[\x7b\"label\": [1]\x7d]")]⟩]⟩ =
        .error pydanticLabelError :=
  ⟨rfl, rfl, rfl⟩

/-- C4 (amended): building the response raises exactly when the completion
has no rows, the first row lacks a columns mapping, the normalized intent
or summary is empty, or one of the two slot parses raises a wrapped
pydantic validation error; and a blank intent raises the exact
missing-required-fields error whatever the other column values are. -/
theorem call_action_table_error_iff :
    (∀ completion : JCompletion,
      (∃ e, call_action_table completion = .error e) ↔
        (completion.rows = none ∨ completion.rows = some [] ∨
          (∃ row rest, completion.rows = some (row :: rest) ∧ row.columns = none) ∨
          (∃ row rest cols, completion.rows = some (row :: rest) ∧
            row.columns = some cols ∧
            (normalize_text_field (colGet cols "intent") = "" ∨
              normalize_text_field (colGet cols "summary") = "" ∨
              (∃ e, colSlots cols = .error e) ∨
              (∃ slots e, colSlots cols = .ok slots ∧
                parse_chosen_slot (colChosenRaw cols) slots = .error e))))) ∧
      (∀ (cols : List (String × PyVal)) (rest : List JRow),
        colGet cols "intent" = .pstr "" →
        call_action_table ⟨some (⟨some cols⟩ :: rest)⟩ =
          .error "JamAI response is missing required fields.") := by
  constructor
  · intro completion
    obtain ⟨rows⟩ := completion
    cases rows with
    | none => simp [call_action_table, extract_columns]
    | some rs =>
      cases rs with
      | nil => simp [call_action_table, extract_columns]
      | cons row rest =>
        obtain ⟨cols?⟩ := row
        cases cols? with
        | none => simp [call_action_table, extract_columns]
        | some cols =>
          by_cases hi : normalize_text_field (colGet cols "intent") = ""
          · simp [call_action_table, extract_columns, build_response_from_cols,
              colIntent, colSummary, hi]
          by_cases hs : normalize_text_field (colGet cols "summary") = ""
          · simp [call_action_table, extract_columns, build_response_from_cols,
              colIntent, colSummary, hi, hs]
          rcases hslots : colSlots cols with e | slots
          · simp [call_action_table, extract_columns, build_response_from_cols,
              colIntent, colSummary, hi, hs, hslots]
          rcases hch : parse_chosen_slot (colChosenRaw cols) slots with e | chosen
          · simp [call_action_table, extract_columns, build_response_from_cols,
              colIntent, colSummary, hi, hs, hslots, hch]
          · simp [call_action_table, extract_columns, build_response_from_cols,
              colIntent, colSummary, hi, hs, hslots, hch]
  · intro cols rest hint
    have h0 : normalize_text_field (colGet cols "intent") = "" := by
      rw [hint]
      rfl
    simp [call_action_table, extract_columns, build_response_from_cols, colIntent, h0]

/-- Witness for C4: a blank intent raises the exact parsing error, the
pydantic-failing completion raises by the iff, and a well-formed completion
does not raise. -/
theorem call_action_table_error_iff_witness :
    call_action_table ⟨some [⟨some [("intent", .pstr ""), ("summary", .pstr "s"),
        ("whatsapp_message", .pstr "w")]⟩]⟩ =
      .error "JamAI response is missing required fields." ∧
      (∃ e, call_action_table ⟨some [⟨some [("intent", .pstr "i"),
          ("summary", .pstr "s"), ("whatsapp_message", .pstr "w"),
          ("slot_options", .pstr "[\x7b\"label\": [1]\x7d]")]⟩]⟩ = .error e) ∧
      ¬ (∃ e, call_action_table ⟨some [⟨some [("intent", .pstr "i"),
          ("summary", .pstr "s"), ("whatsapp_message", .pstr "w")]⟩]⟩ = .error e) :=
  ⟨call_action_table_error_iff.2 [("intent", .pstr ""), ("summary", .pstr "s"),
      ("whatsapp_message", .pstr "w")] [] rfl,
    (call_action_table_error_iff.1 ⟨some [⟨some [("intent", .pstr "i"),
        ("summary", .pstr "s"), ("whatsapp_message", .pstr "w"),
        ("slot_options", .pstr "[\x7b\"label\": [1]\x7d]")]⟩]⟩).mpr
      (Or.inr (Or.inr (Or.inr ⟨_, [], _, rfl, rfl,
        Or.inr (Or.inr (Or.inl ⟨pydanticLabelError, rfl⟩))⟩))),
    fun h => by
      have hmp := (call_action_table_error_iff.1 ⟨some [⟨some [("intent", .pstr "i"),
        ("summary", .pstr "s"), ("whatsapp_message", .pstr "w")]⟩]⟩).mp h
      have hok : call_action_table ⟨some [⟨some [("intent", .pstr "i"),
          ("summary", .pstr "s"), ("whatsapp_message", .pstr "w")]⟩]⟩ =
          .ok ⟨"i", "s", [], none, "w", []⟩ := rfl
      obtain ⟨e, he⟩ := h
      rw [hok] at he
      exact Except.noConfusion he⟩

/-- Reduction of the service layer once validation has passed. -/
theorem process_parent_request_valid_eq
    (backend : RealfunRequest → Except String RealfunResponse)
    (sn sl cm cs rr nt : String)
    (h1 : pyStrip sn ≠ "") (h2 : pyStrip sl ≠ "") (h3 : pyStrip rr ≠ "") :
    process_parent_request backend sn sl cm cs rr nt =
      (match backend ⟨pyStrip sn, pyStrip sl, pyStrip cm, pyStrip cs, pyStrip rr,
          if pyStrip nt = "" then none else some (pyStrip nt)⟩ with
        | .ok r => ([⟨pyStrip sn, pyStrip sl, pyStrip cm, pyStrip cs, pyStrip rr,
            if pyStrip nt = "" then none else some (pyStrip nt)⟩], Except.ok r)
        | .error e => ([⟨pyStrip sn, pyStrip sl, pyStrip cm, pyStrip cs, pyStrip rr,
            if pyStrip nt = "" then none else some (pyStrip nt)⟩],
            Except.error (.jamai e))) := by
  unfold process_parent_request
  rw [if_neg h1, if_neg h2, if_neg h3]

/-- C3: when the three mandatory fields are non-blank after trimming, the
service layer builds the validated request from the trimmed inputs, passes
it to the client operation exactly once, and returns the response that call
produced. -/
theorem process_parent_request_single_call
    (backend : RealfunRequest → Except String RealfunResponse)
    (sn sl cm cs rr nt : String) (resp : RealfunResponse)
    (h1 : pyStrip sn ≠ "") (h2 : pyStrip sl ≠ "") (h3 : pyStrip rr ≠ "")
    (hb : backend ⟨pyStrip sn, pyStrip sl, pyStrip cm, pyStrip cs, pyStrip rr,
        if pyStrip nt = "" then none else some (pyStrip nt)⟩ = .ok resp) :
    process_parent_request backend sn sl cm cs rr nt =
      ([⟨pyStrip sn, pyStrip sl, pyStrip cm, pyStrip cs, pyStrip rr,
          if pyStrip nt = "" then none else some (pyStrip nt)⟩], .ok resp) := by
  rw [process_parent_request_valid_eq backend sn sl cm cs rr nt h1 h2 h3, hb]

/-- Witness for C3 with a constant backend. -/
theorem process_parent_request_single_call_witness :
    process_parent_request (fun _ => .ok ⟨"i", "s", [], none, "m", []⟩)
        " Ada " "Level 1" "online" "Sat 1-2pm" " move class " "" =
      ([⟨"Ada", "Level 1", "online", "Sat 1-2pm", "move class", none⟩],
        .ok ⟨"i", "s", [], none, "m", []⟩) := by
  have h := process_parent_request_single_call (fun _ => .ok ⟨"i", "s", [], none, "m", []⟩)
    " Ada " "Level 1" "online" "Sat 1-2pm" " move class " ""
    ⟨"i", "s", [], none, "m", []⟩ (by decide) (by decide) (by decide) rfl
  exact h

/-- C8: the service-layer validator raises the validation kind (distinct
from the parsing-error kind) exactly when a mandatory field is blank after
trimming; a validation error means the backend was never called; and a
valid submission sends exactly one request carrying the trimmed values,
with notes `None` when blank after trimming. -/
theorem process_parent_request_validation
    (backend : RealfunRequest → Except String RealfunResponse)
    (sn sl cm cs rr nt : String) :
    ((∃ m trace, process_parent_request backend sn sl cm cs rr nt =
        (trace, .error (.validation m))) ↔
      (pyStrip sn = "" ∨ pyStrip sl = "" ∨ pyStrip rr = "")) ∧
      (∀ trace res, process_parent_request backend sn sl cm cs rr nt = (trace, res) →
        (∃ m, res = .error (.validation m)) → trace = []) ∧
      (pyStrip sn ≠ "" → pyStrip sl ≠ "" → pyStrip rr ≠ "" →
        (process_parent_request backend sn sl cm cs rr nt).1 =
          [⟨pyStrip sn, pyStrip sl, pyStrip cm, pyStrip cs, pyStrip rr,
            if pyStrip nt = "" then none else some (pyStrip nt)⟩]) ∧
      (∀ m m', ServiceError.validation m ≠ ServiceError.jamai m') := by
  refine ⟨⟨?_, ?_⟩, ?_, ?_, fun m m' h => ServiceError.noConfusion h⟩
  · rintro ⟨m, trace, h⟩
    by_contra hno
    push_neg at hno
    obtain ⟨hn1, hn2, hn3⟩ := hno
    rw [process_parent_request_valid_eq backend sn sl cm cs rr nt hn1 hn2 hn3] at h
    rcases hbe : backend ⟨pyStrip sn, pyStrip sl, pyStrip cm, pyStrip cs, pyStrip rr,
        if pyStrip nt = "" then none else some (pyStrip nt)⟩ with e | r
    · rw [hbe] at h
      exact ServiceError.noConfusion (Except.error.inj (congrArg Prod.snd h).symm)
    · rw [hbe] at h
      exact Except.noConfusion (congrArg Prod.snd h).symm
  · intro h
    unfold process_parent_request
    by_cases h1 : pyStrip sn = ""
    · rw [if_pos h1]
      exact ⟨"Student name is required.", [], rfl⟩
    · rw [if_neg h1]
      by_cases h2 : pyStrip sl = ""
      · rw [if_pos h2]
        exact ⟨"Student level is required.", [], rfl⟩
      · rw [if_neg h2]
        rcases h with h | h | h
        · exact absurd h h1
        · exact absurd h h2
        · rw [if_pos h]
          exact ⟨"Parent request cannot be empty.", [], rfl⟩
  · rintro trace res hpr ⟨m, hm⟩
    subst hm
    by_cases h1 : pyStrip sn = ""
    · unfold process_parent_request at hpr
      rw [if_pos h1] at hpr
      exact (congrArg Prod.fst hpr).symm
    · by_cases h2 : pyStrip sl = ""
      · unfold process_parent_request at hpr
        rw [if_neg h1, if_pos h2] at hpr
        exact (congrArg Prod.fst hpr).symm
      · by_cases h3 : pyStrip rr = ""
        · unfold process_parent_request at hpr
          rw [if_neg h1, if_neg h2, if_pos h3] at hpr
          exact (congrArg Prod.fst hpr).symm
        · rw [process_parent_request_valid_eq backend sn sl cm cs rr nt h1 h2 h3] at hpr
          rcases hbe : backend ⟨pyStrip sn, pyStrip sl, pyStrip cm, pyStrip cs,
              pyStrip rr, if pyStrip nt = "" then none else some (pyStrip nt)⟩ with e | r
          · rw [hbe] at hpr
            exact absurd (Except.error.inj (congrArg Prod.snd hpr).symm)
              (fun hx => ServiceError.noConfusion hx)
          · exact Except.noConfusion (hbe ▸ congrArg Prod.snd hpr).symm
  · intro h1 h2 h3
    rw [process_parent_request_valid_eq backend sn sl cm cs rr nt h1 h2 h3]
    rcases backend ⟨pyStrip sn, pyStrip sl, pyStrip cm, pyStrip cs, pyStrip rr,
        if pyStrip nt = "" then none else some (pyStrip nt)⟩ with e | r <;> rfl

/-- Witness for C8: a blank name is rejected with the backend never called,
and a valid submission is sent once with trimmed values. -/
theorem process_parent_request_validation_witness :
    (pyStrip "   " = "" ∨ pyStrip "Level 1" = "" ∨ pyStrip "move" = "") ∧
      (process_parent_request (fun _ => .ok ⟨"i", "s", [], none, "m", []⟩)
          "Ada" "Level 1" "online" "Sat" "move" " hint ").1 =
        [⟨"Ada", "Level 1", "online", "Sat", "move", some "hint"⟩] := by
  constructor
  · exact (process_parent_request_validation
      (fun _ => .ok ⟨"i", "s", [], none, "m", []⟩) "   " "Level 1" "online" "Sat"
      "move" "").1.mp ⟨"Student name is required.", [], rfl⟩
  · have h := (process_parent_request_validation
      (fun _ => .ok ⟨"i", "s", [], none, "m", []⟩) "Ada" "Level 1" "online" "Sat"
      "move" " hint ").2.2.1 (by decide) (by decide) (by decide)
    exact h

/-- Data of an appended string. -/
theorem strData_append (s t : String) : (s ++ t).data = s.data ++ t.data := rfl

/-- An infix of an appended list lies in the left part, in the right part,
or spans the seam: a non-empty suffix of the left part followed by a
non-empty prefix of the right part. -/
theorem infix_append_split {α : Type} {pat x y : List α} (h : pat <:+: x ++ y) :
    pat <:+: x ∨ pat <:+: y ∨
      ∃ s t, s ++ t = pat ∧ s ≠ [] ∧ t ≠ [] ∧ s <:+ x ∧ t <+: y := by
  obtain ⟨l, r, hlr⟩ := h
  rcases List.append_eq_append_iff.mp hlr with ⟨a, hx, _⟩ | ⟨c, hlp, hy⟩
  · left
    exact ⟨l, a, hx.symm⟩
  · rcases List.append_eq_append_iff.mp hlp with ⟨a, hx, hpat⟩ | ⟨b, _, hc⟩
    · by_cases hA : a = []
      · right; left
        rw [hA] at hpat
        simp at hpat
        exact ⟨[], r, by rw [hy, ← hpat]; simp⟩
      · by_cases hC : c = []
        · left
          rw [hC, List.append_nil] at hpat
          exact ⟨l, [], by rw [hx, hpat]; simp⟩
        · right; right
          exact ⟨a, c, hpat.symm, hA, hC, ⟨l, hx.symm⟩, ⟨r, hy.symm⟩⟩
    · right; left
      exact ⟨b, r, by rw [hy, hc, List.append_assoc]⟩

/-- An infix avoiding the seam element of `x ++ c :: y` lies inside `x` or
inside `y`. -/
theorem infix_append_cons_split {α : Type} {pat x y : List α} {c : α}
    (hc : c ∉ pat) (h : pat <:+: x ++ c :: y) : pat <:+: x ∨ pat <:+: y := by
  rcases infix_append_split h with h1 | h2 | ⟨s, t, hst, hs, ht, _, hty⟩
  · exact Or.inl h1
  · obtain ⟨l, r, hlr⟩ := h2
    cases l with
    | nil =>
      cases pat with
      | nil => exact Or.inl List.nil_infix
      | cons p ps =>
        simp at hlr
        exact absurd (hlr.1 ▸ List.mem_cons_self c ps) (fun hx => hc (hlr.1 ▸ hx))
    | cons a l' =>
      right
      injection hlr with _ hlr'
      exact ⟨l', r, hlr'⟩
  · exfalso
    apply hc
    have hct : c ∈ t := by
      cases t with
      | nil => exact absurd rfl ht
      | cons u us =>
        obtain ⟨w, hw⟩ := hty
        injection hw with hw1 _
        rw [hw1]
        exact List.mem_cons_self _ _
    rw [← hst]
    exact List.mem_append_right s hct

/-- Data of a joined line list with at least two lines. -/
theorem joinLines_cons_cons (x y : String) (ys : List String) :
    (joinLines (x :: y :: ys)).data = x.data ++ '\n' :: (joinLines (y :: ys)).data := by
  show (x ++ "\n" ++ joinLines (y :: ys)).data = _
  rw [strData_append, strData_append, List.append_assoc]
  rfl

/-- A pattern without newline inside a joined line list lies inside one of
the lines. -/
theorem infix_joinLines {pat : List Char} {lines : List String}
    (hnl : ('\n' : Char) ∉ pat) (h : pat <:+: (joinLines lines).data) :
    pat = [] ∨ ∃ l ∈ lines, pat <:+: l.data := by
  induction lines with
  | nil =>
    left
    exact List.infix_nil.mp h
  | cons x xs ih =>
    cases xs with
    | nil => exact Or.inr ⟨x, List.mem_singleton.mpr rfl, h⟩
    | cons y ys =>
      rw [joinLines_cons_cons] at h
      rcases infix_append_cons_split hnl h with h1 | h2
      · exact Or.inr ⟨x, List.mem_cons_self _ _, h1⟩
      · rcases ih h2 with h3 | ⟨l, hl, hinf⟩
        · exact Or.inl h3
        · exact Or.inr ⟨l, List.mem_cons_of_mem _ hl, hinf⟩

/-- Each line is an infix of the joined line list. -/
theorem infix_joinLines_of_mem {l : String} {lines : List String} (h : l ∈ lines) :
    l.data <:+: (joinLines lines).data := by
  induction lines with
  | nil => cases h
  | cons x xs ih =>
    cases xs with
    | nil =>
      rw [List.mem_singleton.mp h]
      exact List.infix_rfl
    | cons y ys =>
      rw [joinLines_cons_cons]
      rcases List.mem_cons.mp h with rfl | hmem
      · exact (List.prefix_append l.data _).isInfix
      · exact ((ih hmem).trans
          (⟨x.data ++ ['\n'], [], by simp⟩ : (joinLines (y :: ys)).data <:+: _))

/-- The first line is a prefix of the joined line list. -/
theorem joinLines_starts (x : String) (xs : List String) :
    x.data <+: (joinLines (x :: xs)).data := by
  cases xs with
  | nil => exact List.prefix_rfl
  | cons y ys =>
    rw [joinLines_cons_cons]
    exact List.prefix_append _ _

/-- The last line is a suffix of the joined line list. -/
theorem joinLines_ends (c : String) : ∀ ls : List String,
    c.data <:+ (joinLines (ls ++ [c])).data := by
  intro ls
  induction ls with
  | nil => exact List.suffix_rfl
  | cons x xs ih =>
    have hne : ∃ z zs, xs ++ [c] = z :: zs := by
      cases xs with
      | nil => exact ⟨c, [], rfl⟩
      | cons a as => exact ⟨a, as ++ [c], rfl⟩
    obtain ⟨z, zs, hz⟩ := hne
    show c.data <:+ (joinLines (x :: (xs ++ [c]))).data
    rw [hz, joinLines_cons_cons, ← hz]
    exact ih.trans ⟨x.data ++ ['\n'], by simp⟩

/-- Seam check for a fixed line prefix: no non-empty suffix of `pre` is a
proper prefix of `pat`, so `pat` cannot straddle the boundary between `pre`
and the dynamic part of the line. -/
def noSpanSplit (pre pat : List Char) : Bool :=
  pre.tails.all (fun s => s.isEmpty || !(s.isPrefixOf pat && s.length < pat.length))

/-- With a seam check, a pattern inside `pre ++ dyn` lies inside `pre` or
inside `dyn`. -/
theorem not_infix_append_of_noSpan {pre dyn pat : List Char}
    (hns : noSpanSplit pre pat = true)
    (hpre : ¬ pat <:+: pre) (hdyn : ¬ pat <:+: dyn) : ¬ pat <:+: pre ++ dyn := by
  intro h
  rcases infix_append_split h with h1 | h2 | ⟨s, t, hst, hs, ht, hsx, hty⟩
  · exact hpre h1
  · exact hdyn h2
  · have hsp : s <+: pat := ⟨t, hst⟩
    have hlen : s.length < pat.length := by
      rw [← hst, List.length_append]
      cases t with
      | nil => exact absurd rfl ht
      | cons u us => simp
    have hmem : s ∈ pre.tails := (List.mem_tails _ _).mpr hsx
    have hall := List.all_eq_true.mp hns s hmem
    rw [Bool.or_eq_true] at hall
    rcases hall with hall | hall
    · exact hs (List.isEmpty_iff.mp hall)
    · rw [Bool.not_eq_eq_eq_not, Bool.not_true, Bool.and_eq_false_iff] at hall
      rcases hall with hall | hall
      · exact absurd (List.isPrefixOf_iff_prefix.mpr hsp) (by simp [hall])
      · rw [decide_eq_false_iff_not] at hall
        exact hall hlen

/-- A pattern whose head is absent from `pre` and which avoids `dyn` cannot
occur in `pre ++ dyn`. -/
theorem not_infix_append_of_head {pre dyn pat : List Char} {h₀ : Char}
    (hhd : pat.head? = some h₀) (hnotin : h₀ ∉ pre)
    (hdyn : ¬ pat <:+: dyn) : ¬ pat <:+: pre ++ dyn := by
  intro h
  obtain ⟨p, ps, rfl⟩ : ∃ p ps, pat = p :: ps := by
    cases pat with
    | nil => exact Option.noConfusion hhd
    | cons p ps => exact ⟨p, ps, rfl⟩
  injection hhd with hhd
  rcases infix_append_split h with h1 | h2 | ⟨s, t, hst, hs, _, hsx, _⟩
  · exact hnotin (hhd ▸ h1.subset (List.mem_cons_self _ _))
  · exact hdyn h2
  · apply hnotin
    apply hsx.subset
    obtain ⟨u, us, rfl⟩ : ∃ u us, s = u :: us := by
      cases s with
      | nil => exact absurd rfl hs
      | cons u us => exact ⟨u, us, rfl⟩
    have hu : u = p := by
      rw [List.cons_append] at hst
      injection hst with hu _
    rw [hu, hhd]
    exact List.mem_cons_self _ _

/-- Digit characters are digits. -/
theorem digitChar_isDigit (k : Nat) (hk : k < 10) :
    (Char.ofNat (48 + k)).isDigit = true := by
  interval_cases k <;> decide

/-- Every character of `natDigitsGo` is a digit. -/
theorem natDigitsGo_digits (fuel : Nat) : ∀ n c, c ∈ natDigitsGo fuel n →
    c.isDigit = true := by
  induction fuel with
  | zero => intro n c hc; cases hc
  | succ f ih =>
    intro n c hc
    unfold natDigitsGo at hc
    by_cases h : n < 10
    · rw [if_pos h] at hc
      rw [List.mem_singleton.mp hc]
      exact digitChar_isDigit n h
    · rw [if_neg h] at hc
      rcases List.mem_append.mp hc with hc | hc
      · exact ih _ c hc
      · rw [List.mem_singleton.mp hc]
        exact digitChar_isDigit _ (Nat.mod_lt _ (by norm_num))

/-- Every character of a numbered-line prefix `"  {i}. "` is a space, a
dot, or a digit. -/
theorem enumPrefix_chars (i : Nat) :
    ∀ c ∈ ("  " ++ natRepr i ++ ". ").data, c = ' ' ∨ c = '.' ∨ c.isDigit = true := by
  intro c hc
  rw [strData_append, strData_append] at hc
  rcases List.mem_append.mp hc with hc | hc
  · rcases List.mem_append.mp hc with hc | hc
    · rw [show ("  " : String).data = [' ', ' '] from rfl] at hc
      simp at hc
      exact Or.inl hc
    · exact Or.inr (Or.inr (natDigitsGo_digits _ _ _ hc))
  · rw [show (". " : String).data = ['.', ' '] from rfl] at hc
    simp at hc
    rcases hc with hc | hc
    · exact Or.inr (Or.inl hc)
    · exact Or.inl hc

/-- No pattern whose head is not a space, dot or digit occurs in a numbered
slot line with marker-free labels. -/
theorem enumSlotLines_no_marker {pat : List Char} {h₀ : Char}
    (hhd : pat.head? = some h₀)
    (hsp : h₀ ≠ ' ') (hdot : h₀ ≠ '.') (hdig : h₀.isDigit = false) :
    ∀ (sl : List RecommendedSlot) (i : Nat),
      (∀ s ∈ sl, ¬ pat <:+: s.label.data) →
      ∀ l ∈ enumSlotLines i sl, ¬ pat <:+: l.data := by
  intro sl
  induction sl with
  | nil =>
    intro i _ l hl
    cases hl
  | cons s rest ih =>
    intro i hfree l hl
    rcases List.mem_cons.mp hl with rfl | hl
    · have hd : ("  " ++ natRepr i ++ ". " ++ s.label : String).data =
          ("  " ++ natRepr i ++ ". ").data ++ s.label.data := strData_append _ _
      rw [hd]
      apply not_infix_append_of_head hhd ?_ (hfree s (List.mem_cons_self _ _))
      intro hmem
      rcases enumPrefix_chars i h₀ hmem with h | h | h
      · exact hsp h
      · exact hdot h
      · rw [h] at hdig
        exact Bool.noConfusion hdig
    · exact ih (i + 1) (fun x hx => hfree x (List.mem_cons_of_mem _ hx)) l hl

/-- A pattern that avoids the fixed lines of the fallback message, cannot
straddle the seams of its composite lines, and avoids the summary and the
displayed labels, does not occur in the synthesized fallback message. -/
theorem fallback_no_marker (summary : String) (slots : List RecommendedSlot)
    (chosen : Option RecommendedSlot) (pat : List Char) (h₀ : Char)
    (hhd : pat.head? = some h₀)
    (hnl : ('\n' : Char) ∉ pat)
    (hsp : h₀ ≠ ' ') (hdot : h₀ ≠ '.') (hdig : h₀.isDigit = false)
    (hopen : ¬ pat <:+: openingLine.data)
    (hclose : ¬ pat <:+: closingLine.data)
    (hhdr : ¬ pat <:+: ("- Recommended slots:" : String).data)
    (hns1 : noSpanSplit ("- Summary: " : String).data pat = true)
    (hp1 : ¬ pat <:+: ("- Summary: " : String).data)
    (hns2 : noSpanSplit ("- Suggested slot: " : String).data pat = true)
    (hp2 : ¬ pat <:+: ("- Suggested slot: " : String).data)
    (hsum : ¬ pat <:+: summary.data)
    (hch : ∀ c, chosen = some c → ¬ pat <:+: c.label.data)
    (hsl : ∀ s ∈ slots.take 5, ¬ pat <:+: s.label.data) :
    ¬ pat <:+: (build_fallback_message summary slots chosen).data := by
  intro h
  have hne : pat ≠ [] := by
    intro he
    rw [he] at hhd
    exact Option.noConfusion hhd
  rcases infix_joinLines hnl h with rfl | ⟨l, hl, hinf⟩
  · exact hne rfl
  unfold fallbackLines at hl
  rw [List.append_assoc, List.append_assoc] at hl
  rcases List.mem_append.mp hl with hl | hl
  · rw [List.mem_singleton.mp hl] at hinf
    exact hopen hinf
  rcases List.mem_append.mp hl with hl | hl
  · by_cases hse : summary ≠ ""
    · rw [if_pos hse] at hl
      rw [List.mem_singleton.mp hl, strData_append] at hinf
      exact not_infix_append_of_noSpan hns1 hp1 hsum hinf
    · rw [if_neg hse] at hl
      cases hl
  rcases List.mem_append.mp hl with hl | hl
  · cases hcs : chosen with
    | some c =>
      rw [hcs] at hl
      rw [List.mem_singleton.mp hl, strData_append] at hinf
      exact not_infix_append_of_noSpan hns2 hp2 (hch c hcs) hinf
    | none =>
      rw [hcs] at hl
      by_cases hsl5 : slots.isEmpty
      · rw [if_pos hsl5] at hl
        cases hl
      · rw [if_neg hsl5] at hl
        rcases List.mem_cons.mp hl with rfl | hl
        · exact hhdr hinf
        · exact enumSlotLines_no_marker hhd hsp hdot hdig (slots.take 5) 1 hsl l hl hinf
  · rw [List.mem_singleton.mp hl] at hinf
    exact hclose hinf

/-- C1 (amended): whenever the call succeeds and the normalized
`whatsapp_message` is empty or flagged by the dump-blob predicate, the
response's message is the synthesized fallback built from the response's
own summary, slots and chosen slot: it starts with the fixed opening line,
contains the bulleted summary line, then either the single suggested-slot
line (when a chosen slot exists) or the enumeration of at most the first
five recommended slots, and ends with the closing instruction line; and it
contains no dump marker (`object=`, `id=chatcmpl-`) provided the summary
and the displayed slot labels do not themselves contain that marker. -/
theorem call_action_table_fallback_spec
    (cols : List (String × PyVal)) (rest : List JRow) (resp : RealfunResponse)
    (hok : call_action_table ⟨some (⟨some cols⟩ :: rest)⟩ = .ok resp)
    (hfb : normalize_text_field (colGet cols "whatsapp_message") = "" ∨
      looks_like_completion_blob (normalize_text_field (colGet cols "whatsapp_message")) =
        true) :
    resp.whatsapp_message =
        build_fallback_message resp.summary resp.recommended_slots resp.chosen_slot ∧
      openingLine.data <+: resp.whatsapp_message.data ∧
      ("- Summary: " ++ resp.summary).data <:+: resp.whatsapp_message.data ∧
      (∀ c, resp.chosen_slot = some c →
        ("- Suggested slot: " ++ c.label).data <:+: resp.whatsapp_message.data) ∧
      (resp.chosen_slot = none → resp.recommended_slots ≠ [] →
        ("- Recommended slots:" : String).data <:+: resp.whatsapp_message.data ∧
        ∀ line ∈ enumSlotLines 1 (resp.recommended_slots.take 5),
          line.data <:+: resp.whatsapp_message.data) ∧
      closingLine.data <:+ resp.whatsapp_message.data ∧
      (∀ pat : String, (pat = "object=" ∨ pat = "id=chatcmpl-") →
        ¬ pat.data <:+: resp.summary.data →
        (∀ c, resp.chosen_slot = some c → ¬ pat.data <:+: c.label.data) →
        (∀ s ∈ resp.recommended_slots.take 5, ¬ pat.data <:+: s.label.data) →
        ¬ pat.data <:+: resp.whatsapp_message.data) := by
  have hok' : build_response_from_cols cols = .ok resp := hok
  unfold build_response_from_cols at hok'
  split at hok'
  · exact absurd hok' (by simp)
  · rename_i hcond
    simp only [Bool.or_eq_true, decide_eq_true_eq, not_or] at hcond
    obtain ⟨hint_ne, hsum_ne⟩ := hcond
    split at hok'
    · exact absurd hok' (by simp)
    rename_i slots hslots
    split at hok'
    · exact absurd hok' (by simp)
    rename_i chosen hchq
    have hrespeq : resp = ⟨colIntent cols, colSummary cols, slots, chosen,
        if colWhatsapp0 cols = "" ||
            looks_like_completion_blob (colWhatsapp0 cols) then
          build_fallback_message (colSummary cols) slots chosen
        else colWhatsapp0 cols,
        parse_warnings (colGet cols "warnings")⟩ := by
      injection hok' with h
      exact h.symm
    subst hrespeq
    have hw : (if colWhatsapp0 cols = "" ||
          looks_like_completion_blob (colWhatsapp0 cols) then
        build_fallback_message (colSummary cols) slots chosen
      else colWhatsapp0 cols) =
        build_fallback_message (colSummary cols) slots chosen := by
      rcases hfb with hfb | hfb
      · rw [if_pos (by simp [show colWhatsapp0 cols = "" from hfb])]
      · rw [if_pos (by
          simp [show looks_like_completion_blob (colWhatsapp0 cols) = true from hfb])]
    dsimp only
    rw [hw]
    refine ⟨rfl, ?_, ?_, ?_, ?_, ?_, ?_⟩
    · exact joinLines_starts _ _
    · apply infix_joinLines_of_mem
      unfold fallbackLines
      rw [if_pos hsum_ne]
      exact List.mem_append_left _ (List.mem_append_left _
        (List.mem_append_right _ (List.mem_singleton.mpr rfl)))
    · intro c hc
      apply infix_joinLines_of_mem
      unfold fallbackLines
      rw [hc]
      exact List.mem_append_left _
        (List.mem_append_right _ (List.mem_singleton.mpr rfl))
    · intro hnone hne
      have hisEmpty : slots.isEmpty = false := by
        cases h : slots with
        | nil => exact absurd h hne
        | cons a as => rfl
      constructor
      · apply infix_joinLines_of_mem
        unfold fallbackLines
        rw [hnone, hisEmpty]
        exact List.mem_append_left _
          (List.mem_append_right _ (List.mem_cons_self _ _))
      · intro line hline
        apply infix_joinLines_of_mem
        unfold fallbackLines
        rw [hnone, hisEmpty]
        exact List.mem_append_left _
          (List.mem_append_right _ (List.mem_cons_of_mem _ hline))
    · exact joinLines_ends _ _
    · intro pat hpat hsum hch hsl
      rcases hpat with rfl | rfl
      · exact fallback_no_marker _ _ _ _ 'o' rfl (by decide) (by decide) (by decide)
          (by decide) (by decide) (by decide) (by decide) (by decide) (by decide)
          (by decide) (by decide) hsum hch hsl
      · exact fallback_no_marker _ _ _ _ 'i' rfl (by decide) (by decide) (by decide)
          (by decide) (by decide) (by decide) (by decide) (by decide) (by decide)
          (by decide) (by decide) hsum hch hsl

/-- C1 (counterexample): an upstream `whatsapp_message` carrying both dump
markers does trigger the fallback, but when the summary itself carries the
markers the built message still contains them — the claim's marker-absence
clause fails as stated. -/
theorem call_action_table_fallback_counterexample :
    containsSub "object= id=chatcmpl-2 junk" "object=" = true ∧
      containsSub "object= id=chatcmpl-2 junk" "id=chatcmpl-" = true ∧
      normalize_text_field (PyVal.pstr "object= id=chatcmpl-2 junk") =
        "object= id=chatcmpl-2 junk" ∧
      looks_like_completion_blob "object= id=chatcmpl-2 junk" = true ∧
      (match call_action_table ⟨some [⟨some [("intent", PyVal.pstr "a"),
          ("summary", PyVal.pstr "x object= id=chatcmpl-1"),
          ("whatsapp_message", PyVal.pstr "object= id=chatcmpl-2 junk")]⟩]⟩ with
        | .ok r => containsSub r.whatsapp_message "object=" &&
            containsSub r.whatsapp_message "id=chatcmpl-"
        | .error _ => false) = true :=
  ⟨rfl, rfl, rfl, rfl, rfl⟩

/-- The response built for the witness completion of C1: empty upstream
message, so the fallback with the summary line only. -/
def fallbackDemoResp : RealfunResponse :=
  ⟨"a", "b", [], none,
    "Hi! Here is a quick summary and options based on your request:\n- Summary: b\nPlease reply with your preferred option (or share a new timing), and we will confirm with the teacher.",
    []⟩

/-- Witness for C1 at a completion with an empty upstream message. -/
theorem call_action_table_fallback_spec_witness :
    openingLine.data <+: fallbackDemoResp.whatsapp_message.data ∧
      ("- Summary: " ++ fallbackDemoResp.summary).data <:+:
        fallbackDemoResp.whatsapp_message.data ∧
      closingLine.data <:+ fallbackDemoResp.whatsapp_message.data ∧
      ¬ ("object=" : String).data <:+: fallbackDemoResp.whatsapp_message.data := by
  have h := call_action_table_fallback_spec
    [("intent", .pstr "a"), ("summary", .pstr "b")] [] fallbackDemoResp rfl (Or.inl rfl)
  exact ⟨h.2.1, h.2.2.1, h.2.2.2.2.2.1,
    h.2.2.2.2.2.2 "object=" (Or.inl rfl) (by decide)
      (fun c hc => Option.noConfusion hc) (by intro s hs; simp [fallbackDemoResp] at hs)⟩
